import Mathlib

/-!
Verification of the chatmail authentication core (doveauth / database / newemail).

The repository ships the test suites (`test_doveauth.py`, `test_newmail.py`) and a
deployment script; the implementation modules `chatmaild/doveauth.py`,
`chatmaild/database.py` and `chatmaild/newemail.py` themselves are not part of the
source tree available here.  The definitions below are therefore modelled from the
specification (spec.md) and from the concrete behaviour pinned down by the test
suites: record field names (`home`, `uid`, `gid`, `password`), the `/home/vmail/…`
home directory convention, the fixed `vmail` storage owner, the `O`/`N`/`F` reply
tags of the dovecot dictionary protocol, the `{SHA512-CRYPT}` hash tag, and the
`user_version`-pragma schema versioning with maximum known version 1.

Randomness (salt generation, new-account credential generation) is not expressible
in a pure shallow embedding; following the spec's requirement that each call draws
fresh randomness, every random draw is modelled as an injective function of an
explicit freshness nonce that the caller supplies, and filesystem state (the
`NOCREATE_FILE` sentinel) is modelled as an explicit boolean input, as the spec
describes it ("an external flag the caller surfaces as an input").
-/

/-- Per-domain configuration object.  Modelled from the spec: "a small per-domain
configuration object (mail domain, storage paths, home-directory naming
convention) supplied by the caller". -/
structure Config where
  mail_domain : String
deriving Repr, DecidableEq

/-- The account record returned by lookups.  Modelled from the spec (§3, §6): the
payload fields are the address, the derived home path, the fixed storage-owner
identity (`uid`/`gid`) and the stored password hash.  Field names follow the
test suite's observed dictionary keys plus the spec's `address` field. -/
structure UserData where
  address : String
  home : String
  uid : String
  gid : String
  password : String
deriving Repr, DecidableEq

/-- Errors raised by the credential store.  Modelled from the spec (§7):
`SchemaError` is the fatal "data format newer than code" failure; the test suite
imports it as `chatmaild.database.DBError`. -/
inductive DBError where
  | schema_too_high : Nat → DBError
deriving Repr, DecidableEq

/-- State of the embedded transactional store: the `user_version` pragma used as
the schema-version marker, the `users` table (one row per address: address and
stored password hash), and whether `ensure_tables` has run.  Modelled from the
spec (§4.1, §6): "a single versioned relational store; the version marker must be
queryable independently of full schema introspection". -/
structure Database where
  user_version : Nat
  users : List (String × String)
  tables_created : Bool
deriving Repr, DecidableEq

/-- The code's maximum known schema version, as asserted by the test suite
(`db.get_schema_version() == 1`). -/
def DBVERSION : Nat := 1

/-- A freshly opened store: version marker 0, no tables, no rows. -/
def Database.init : Database :=
  { user_version := 0, users := [], tables_created := false }

/-- Modelled from the spec: the version marker is stored as the database's
`user_version` pragma and read directly from it. -/
def Database.get_schema_version (db : Database) : Nat :=
  db.user_version

/-- Modelled from the spec (§4.1 `ensure_schema`): if the stored version exceeds
the code's known maximum `DBVERSION`, fail with a `DBError` before touching the
schema; otherwise create the account table if absent and stamp the version
marker (migrating forward from older known versions). -/
def Database.ensure_tables (db : Database) : Except DBError Database :=
  if DBVERSION < db.user_version then
    Except.error (DBError.schema_too_high db.user_version)
  else
    Except.ok { db with user_version := DBVERSION, tables_created := true }

/-- The store state produced by `ensure_tables` on a fresh store. -/
def fresh_db : Database :=
  { user_version := DBVERSION, users := [], tables_created := true }

/-- Raw row read: the stored password hash for an address, if a row exists.
Modelled from the spec (§4.1 `get`): "pure read; returns the stored record or an
absence marker; never creates". -/
def Database.get_user (db : Database) (addr : String) : Option String :=
  (db.users.find? (fun p => p.1 == addr)).map (fun p => p.2)

/-- Derived account record for an address with stored hash `pwhash`: the home
path follows the `/home/vmail/<address>` convention and the storage-owner
identity is the fixed `vmail` account, as asserted by the test suite. -/
def user_record (addr : String) (pwhash : String) : UserData :=
  { address := addr
    home := "/home/vmail/" ++ addr
    uid := "vmail"
    gid := "vmail"
    password := pwhash }

/-- Modelled from the spec: `get_user_data` returns the account record stored for
an address, or absence, never creating anything. -/
def get_user_data (db : Database) (addr : String) : Option UserData :=
  (db.get_user addr).map (fun pwhash => user_record addr pwhash)

/-- Modelled from the spec: the one-way digest inside the crypt hash.  The
cryptographic digest itself ("computationally expensive, salted, one-way") is
not expressible in a shallow embedding; it is abstracted as an uninterpreted
deterministic function of the secret.  Only determinism and the self-describing
tagged format matter for the claims below. -/
def sha512_digest (secret : String) : String :=
  secret

/-- Modelled from the spec (§4.2): hash a plaintext secret into a self-describing
tagged hash string — algorithm prefix, then the salt, then the digest.  The salt
is supplied by the caller's randomness source; each call of the real code draws
a fresh one. -/
def encrypt_password (salt : String) (secret : String) : String :=
  "\x7bSHA512-CRYPT\x7d$6$" ++ salt ++ "$" ++ sha512_digest secret

/-- Modelled from the spec (§4.3 and §4.1 `get_or_create`): look up an address,
returning the stored record unchanged if a row exists (the presented secret is
never checked and never overwrites the stored hash); on a miss, return absence
without mutation when creation is administratively disabled (`nocreate`, the
caller-surfaced `NOCREATE_FILE` sentinel), and otherwise atomically insert the
freshly provisioned record and return it.  `salt` is the fresh salt drawn for
the provisioning hash. -/
def lookup_passdb (db : Database) (config : Config) (addr : String)
    (secret : String) (nocreate : Bool) (salt : String) :
    Option UserData × Database :=
  match db.get_user addr with
  | some pwhash => (some (user_record addr pwhash), db)
  | none =>
    if nocreate then
      (none, db)
    else
      let pwhash := encrypt_password salt secret
      (some (user_record addr pwhash),
       { db with users := (addr, pwhash) :: db.users })

/-- A serialized sequence of lookup calls for one address, each caller presenting
its own secret and drawing its own salt; returns the final store state and each
caller's result in order.  Modelled from the spec (§5): the store's atomic
`get_or_create` "totally orders the race among concurrent creators", so N
concurrent callers are modelled as an arbitrary serialization. -/
def run_lookups (db : Database) (config : Config) (addr : String)
    (nocreate : Bool) : List (String × String) → Database × List (Option UserData)
  | [] => (db, [])
  | (secret, salt) :: rest =>
    let r := lookup_passdb db config addr secret nocreate salt
    let rr := run_lookups r.2 config addr nocreate rest
    (rr.1, r.1 :: rr.2)

/-- Serialization of an account record as the compact key-ordered object placed in
a success reply.  Modelled from the spec (§6): "a structured payload serialized
as a compact object with fields address, home_path, password_hash, and
owner-identity fields". -/
def serialize_user (u : UserData) : String :=
  "\x7b\"address\": \"" ++ u.address ++ "\", \"home\": \"" ++ u.home ++
    "\", \"uid\": \"" ++ u.uid ++ "\", \"gid\": \"" ++ u.gid ++
    "\", \"password\": \"" ++ u.password ++ "\"\x7d"

/-- A single protocol reply line: one-character tag, payload immediately after it
with no separator, terminated by exactly one newline. -/
def mkReply (tag : Char) (payload : String) : String :=
  String.mk (tag :: payload.data ++ ['\n'])

/-- Split a character list at every occurrence of `c` (the model of Python's
`str.split` used on the request key and on the tab separator). -/
def splitOnChar (c : Char) : List Char → List (List Char)
  | [] => [[]]
  | x :: xs =>
    match splitOnChar c xs with
    | [] => if x = c then [[], []] else [[x]]
    | y :: ys => if x = c then [] :: y :: ys else (x :: y) :: ys

/-- Modelled from the spec (§4.4): handle the body of a dictionary-protocol
lookup request.  The key before the tab splits on `/` into
`shared/passdb/<token>/<address>`; the trailing copy of the address after the
tab echoes metadata and is ignored.  A recognized passdb lookup dispatches to
`lookup_passdb`; a hit serializes as an `O` reply, a miss as an `N` reply, and
anything malformed is treated uniformly as a not-found `F` reply rather than an
error. -/
def handle_lookup (body : List Char) (db : Database) (config : Config)
    (nocreate : Bool) (salt : String) : String × Database :=
  match splitOnChar '\t' body with
  | [keyname, _user] =>
    match splitOnChar '/' keyname with
    | [ns, ty, token, addrChars] =>
      if ns = "shared".data ∧ ty = "passdb".data then
        let addr := String.mk addrChars
        let r := lookup_passdb db config addr (String.mk token) nocreate salt
        match r.1 with
        | some u => (mkReply 'O' (serialize_user u), r.2)
        | none => (mkReply 'N' "", r.2)
      else
        (mkReply 'F' "", db)
    | _ => (mkReply 'F' "", db)
  | _ => (mkReply 'F' "", db)

/-- Modelled from the spec (§4.4): a stateless request/response adapter.  A
request line is classified by its leading tag character; `L` (lookup) requests
are parsed and dispatched, and every other or empty line — unrecognized command
tags included — is rejected uniformly with a not-found/failure reply, never an
exception. -/
def handle_dovecot_request (msg : String) (db : Database) (config : Config)
    (nocreate : Bool) (salt : String) : String × Database :=
  match msg.data with
  | [] => (mkReply 'F' "", db)
  | c :: rest =>
    if c = 'L' then handle_lookup rest db config nocreate salt
    else (mkReply 'F' "", db)

/-- Modelled from the spec: the random local part of a freshly provisioned
address.  The random generator is abstracted as an injective function of a
freshness nonce (real calls draw fresh randomness, so distinct calls have
distinct nonces). -/
def gen_random_user (n : Nat) : String :=
  String.mk (List.replicate (9 + n) 'u')

/-- Modelled from the spec: the random plaintext password of a freshly
provisioned account, at least 10 characters long; abstracted as an injective
function of a freshness nonce. -/
def gen_random_password (n : Nat) : String :=
  String.mk (List.replicate (12 + n) 'q')

/-- A freshly provisioned address/secret pair. -/
structure NewEmailDict where
  email : String
  password : String
deriving Repr, DecidableEq

/-- Modelled from the spec (§6): the account provisioning endpoint produces a new
address/secret pair; the email lies within the configured mail domain.  `n` is
the freshness nonce standing for the call's random draw. -/
def create_newemail_dict (config : Config) (n : Nat) : NewEmailDict :=
  { email := gen_random_user n ++ "@" ++ config.mail_domain
    password := gen_random_password n }

/-! ### Helper lemmas -/

/-- Strings with equal character data are equal. -/
lemma data_inj {s t : String} (h : s.data = t.data) : s = t := by
  cases s; cases t; exact congrArg String.mk h

/-- `splitOnChar` never returns the empty list of fragments. -/
lemma splitOnChar_ne_nil (c : Char) (l : List Char) : splitOnChar c l ≠ [] := by
  cases l with
  | nil => simp [splitOnChar]
  | cons x xs =>
    simp only [splitOnChar]
    rcases splitOnChar c xs with _ | ⟨y, ys⟩ <;> by_cases hx : x = c <;> simp [hx]

/-- Splitting a fragment free of the separator yields just that fragment. -/
lemma splitOnChar_not_mem {c : Char} {l : List Char} (h : c ∉ l) :
    splitOnChar c l = [l] := by
  induction l with
  | nil => rfl
  | cons x xs ih =>
    have hx : ¬x = c := fun he => h (he ▸ List.mem_cons_self x xs)
    have hxs : c ∉ xs := fun hm => h (List.mem_cons_of_mem _ hm)
    simp [splitOnChar, ih hxs, hx]

/-- Splitting at the first separator occurrence peels off the leading fragment. -/
lemma splitOnChar_append {c : Char} (a b : List Char) (h : c ∉ a) :
    splitOnChar c (a ++ c :: b) = a :: splitOnChar c b := by
  induction a with
  | nil =>
    simp only [List.nil_append, splitOnChar]
    rcases hs : splitOnChar c b with _ | ⟨y, ys⟩
    · exact absurd hs (splitOnChar_ne_nil c b)
    · simp
  | cons x xs ih =>
    have hx : ¬x = c := fun he => h (he ▸ List.mem_cons_self x xs)
    have hxs : c ∉ xs := fun hm => h (List.mem_cons_of_mem _ hm)
    simp only [List.cons_append, splitOnChar, List.append_eq, ih hxs, hx, if_false]

/-- Reading an address after inserting a row: the new row answers exactly for its
own address. -/
lemma get_user_insert (db : Database) (a a' h' : String) :
    Database.get_user { db with users := (a', h') :: db.users } a =
      if a' == a then some h' else db.get_user a := by
  simp only [Database.get_user]
  rcases hbeq : a' == a with _ | _
  · rw [List.find?_cons_of_neg _ (by simpa using hbeq)]
    simp
  · rw [List.find?_cons_of_pos _ (by simpa using hbeq)]
    simp

/-- A lookup on an address with an existing row returns the stored record and
leaves the store untouched. -/
lemma lookup_passdb_found {db : Database} {a h : String} (config : Config)
    (hdb : db.get_user a = some h) (s : String) (nc : Bool) (salt : String) :
    lookup_passdb db config a s nc salt = (some (user_record a h), db) := by
  simp [lookup_passdb, hdb]

/-- A lookup on a missing address with creation enabled provisions and inserts
exactly one row for it. -/
lemma lookup_passdb_create {db : Database} {a : String} (config : Config)
    (hdb : db.get_user a = none) (s salt : String) :
    lookup_passdb db config a s false salt =
      (some (user_record a (encrypt_password salt s)),
       { db with users := (a, encrypt_password salt s) :: db.users }) := by
  simp [lookup_passdb, hdb]

/-- No lookup — for any address, secret, creation flag or salt — ever changes the
stored hash of an existing account. -/
lemma get_user_after_lookup {db : Database} {a h : String} (config : Config)
    (hdb : db.get_user a = some h) (a' s : String) (nc : Bool) (salt : String) :
    Database.get_user (lookup_passdb db config a' s nc salt).2 a = some h := by
  rcases hdb' : db.get_user a' with _ | h'
  · by_cases hnc : nc
    · simp [lookup_passdb, hdb', hnc, hdb]
    · have hne : (a' == a) = false := by
        simp only [beq_eq_false_iff_ne, ne_eq]
        intro he
        rw [he, hdb] at hdb'
        exact Option.noConfusion hdb'
      simp [lookup_passdb, hdb', hnc, get_user_insert, hne, hdb]
  · simp [lookup_passdb, hdb', hdb]

/-- Once a row exists, any serialized sequence of lookups for its address leaves
the store unchanged and returns the stored record to every caller. -/
lemma run_lookups_stable {db : Database} {a h : String} (config : Config)
    (hdb : db.get_user a = some h) (nc : Bool) (calls : List (String × String)) :
    run_lookups db config a nc calls =
      (db, calls.map (fun _ => some (user_record a h))) := by
  induction calls with
  | nil => rfl
  | cons c rest ih =>
    rcases c with ⟨s, salt⟩
    simp only [run_lookups, lookup_passdb_found config hdb s nc salt, ih, List.map_cons]

/-! ### Claim theorems -/

/-- C2: for every address and secret, calling `lookup_passdb` twice with the same
address and secret returns the identical account record both times — including
the identical password hash — and the second call leaves the store unchanged. -/
theorem lookup_passdb_idempotent (db : Database) (config : Config)
    (a s salt₁ salt₂ : String) (nc₁ nc₂ : Bool) (u : UserData)
    (h : (lookup_passdb db config a s nc₁ salt₁).1 = some u) :
    lookup_passdb (lookup_passdb db config a s nc₁ salt₁).2 config a s nc₂ salt₂ =
      (some u, (lookup_passdb db config a s nc₁ salt₁).2) := by
  rcases hdb : db.get_user a with _ | h₀
  · by_cases hnc : nc₁
    · simp [lookup_passdb, hdb, hnc] at h
    · have hnc' : nc₁ = false := by simpa using hnc
      subst hnc'
      rw [lookup_passdb_create config hdb s salt₁] at h ⊢
      simp only [Option.some.injEq] at h
      subst h
      have hins : Database.get_user
          { db with users := (a, encrypt_password salt₁ s) :: db.users } a =
            some (encrypt_password salt₁ s) := by
        rw [get_user_insert]
        simp
      exact lookup_passdb_found config hins s nc₂ salt₂
  · rw [lookup_passdb_found config hdb s nc₁ salt₁] at h ⊢
    simp only [Option.some.injEq] at h
    subst h
    exact lookup_passdb_found config hdb s nc₂ salt₂

/-- Witness for C2: the test-suite scenario — two lookups for
`link2xt@c1.testrun.org` with the same secret yield the identical record. -/
theorem lookup_passdb_idempotent_witness :
    lookup_passdb (lookup_passdb fresh_db ⟨"c1.testrun.org"⟩ "link2xt@c1.testrun.org"
        "Pieg9aeToe3eghuthe5u" false "s1").2 ⟨"c1.testrun.org"⟩ "link2xt@c1.testrun.org"
        "Pieg9aeToe3eghuthe5u" false "s2" =
      (some (user_record "link2xt@c1.testrun.org"
          (encrypt_password "s1" "Pieg9aeToe3eghuthe5u")),
       (lookup_passdb fresh_db ⟨"c1.testrun.org"⟩ "link2xt@c1.testrun.org"
          "Pieg9aeToe3eghuthe5u" false "s1").2) :=
  lookup_passdb_idempotent fresh_db ⟨"c1.testrun.org"⟩ "link2xt@c1.testrun.org"
    "Pieg9aeToe3eghuthe5u" "s1" "s2" false false
    (user_record "link2xt@c1.testrun.org" (encrypt_password "s1" "Pieg9aeToe3eghuthe5u"))
    (by decide)

/-- C1: a lookup with a first secret followed by a lookup with a different secret
returns the first call's record (and hash) both times, the store still holds the
first call's hash afterwards, and — in general — no later lookup, for any
address and any presented secret, ever changes an existing account's stored
password hash. -/
theorem lookup_passdb_no_overwrite (db : Database) (config : Config)
    (a s₁ s₂ salt₁ salt₂ : String) (nc₁ nc₂ : Bool) (u₁ : UserData)
    (hne : s₁ ≠ s₂)
    (h₁ : (lookup_passdb db config a s₁ nc₁ salt₁).1 = some u₁) :
    (lookup_passdb (lookup_passdb db config a s₁ nc₁ salt₁).2 config a s₂ nc₂ salt₂).1 =
        some u₁ ∧
    Database.get_user
        (lookup_passdb (lookup_passdb db config a s₁ nc₁ salt₁).2 config a s₂ nc₂ salt₂).2
        a = some u₁.password ∧
    ∀ (db' : Database) (hsh a' s : String) (nc : Bool) (salt : String),
      db'.get_user a = some hsh →
      Database.get_user (lookup_passdb db' config a' s nc salt).2 a = some hsh := by
  have key : ∀ u, (lookup_passdb db config a s₁ nc₁ salt₁).1 = some u →
      Database.get_user (lookup_passdb db config a s₁ nc₁ salt₁).2 a = some u.password := by
    intro u hu
    rcases hdb : db.get_user a with _ | h₀
    · by_cases hnc : nc₁
      · simp [lookup_passdb, hdb, hnc] at hu
      · have hnc' : nc₁ = false := by simpa using hnc
        subst hnc'
        rw [lookup_passdb_create config hdb s₁ salt₁] at hu ⊢
        simp only [Option.some.injEq] at hu
        subst hu
        rw [get_user_insert]
        simp [user_record]
    · rw [lookup_passdb_found config hdb s₁ nc₁ salt₁] at hu ⊢
      simp only [Option.some.injEq] at hu
      subst hu
      simpa [user_record] using hdb
  have hstored := key u₁ h₁
  have hsecond := lookup_passdb_found config hstored s₂ nc₂ salt₂
  have hu₁ : user_record a u₁.password = u₁ := by
    rcases hdb : db.get_user a with _ | h₀
    · by_cases hnc : nc₁
      · simp [lookup_passdb, hdb, hnc] at h₁
      · have hnc' : nc₁ = false := by simpa using hnc
        subst hnc'
        rw [lookup_passdb_create config hdb s₁ salt₁] at h₁
        simp only [Option.some.injEq] at h₁
        subst h₁
        rfl
    · rw [lookup_passdb_found config hdb s₁ nc₁ salt₁] at h₁
      simp only [Option.some.injEq] at h₁
      subst h₁
      rfl
  refine ⟨?_, ?_, ?_⟩
  · rw [hsecond, hu₁]
  · rw [hsecond]
    exact hstored
  · intro db' hsh a' s nc salt hdb'
    exact get_user_after_lookup config hdb' a' s nc salt

/-- Witness for C1: the test-suite scenario — `newuser1@something.org` logs in
with one secret and then with a different one; the first hash wins both times. -/
theorem lookup_passdb_no_overwrite_witness :
    "kajdlkajsldk12l3kj1983" ≠ "kajdlqweqwe" ∧
    ((lookup_passdb (lookup_passdb fresh_db ⟨"something.org"⟩ "newuser1@something.org"
          "kajdlkajsldk12l3kj1983" false "s1").2 ⟨"something.org"⟩ "newuser1@something.org"
          "kajdlqweqwe" false "s2").1 =
        some (user_record "newuser1@something.org"
          (encrypt_password "s1" "kajdlkajsldk12l3kj1983")) ∧
      Database.get_user (lookup_passdb (lookup_passdb fresh_db ⟨"something.org"⟩
          "newuser1@something.org" "kajdlkajsldk12l3kj1983" false "s1").2 ⟨"something.org"⟩
          "newuser1@something.org" "kajdlqweqwe" false "s2").2 "newuser1@something.org" =
        some (user_record "newuser1@something.org"
          (encrypt_password "s1" "kajdlkajsldk12l3kj1983")).password ∧
      ∀ (db' : Database) (hsh a' s : String) (nc : Bool) (salt : String),
        db'.get_user "newuser1@something.org" = some hsh →
        Database.get_user (lookup_passdb db' ⟨"something.org"⟩ a' s nc salt).2
          "newuser1@something.org" = some hsh) :=
  ⟨by decide,
   lookup_passdb_no_overwrite fresh_db ⟨"something.org"⟩ "newuser1@something.org"
     "kajdlkajsldk12l3kj1983" "kajdlqweqwe" "s1" "s2" false false
     (user_record "newuser1@something.org" (encrypt_password "s1" "kajdlkajsldk12l3kj1983"))
     (by decide) (by decide)⟩

/-- C4: initializing a store whose persisted version marker exceeds the code's
known maximum fails with a `DBError` (schema error), before any table creation
or query, and the store is not stamped or advanced. -/
theorem ensure_tables_schema_guard (db : Database)
    (h : DBVERSION < db.user_version) :
    db.ensure_tables = Except.error (DBError.schema_too_high db.user_version) ∧
    ∀ db', db.ensure_tables ≠ Except.ok db' := by
  constructor
  · simp [Database.ensure_tables, h]
  · intro db'
    simp [Database.ensure_tables, h]

/-- Witness for C4: the test-suite scenario — a store stamped with
`user_version = 999` refuses to initialize. -/
theorem ensure_tables_schema_guard_witness :
    DBVERSION < (999 : Nat) ∧
    (Database.ensure_tables ⟨999, [], true⟩ =
        Except.error (DBError.schema_too_high 999) ∧
      ∀ db', Database.ensure_tables ⟨999, [], true⟩ ≠ Except.ok db') :=
  ⟨by decide, ensure_tables_schema_guard ⟨999, [], true⟩ (by decide)⟩

/-- C5: with the creation-disabled flag present, a lookup for an absent address
returns absence, performs no store mutation at all, and a subsequent
`get_user_data` for that address still finds no row. -/
theorem lookup_passdb_nocreate (db : Database) (config : Config)
    (a s salt : String) (h : db.get_user a = none) :
    lookup_passdb db config a s true salt = (none, db) ∧
    get_user_data (lookup_passdb db config a s true salt).2 a = none := by
  constructor
  · simp [lookup_passdb, h]
  · simp [lookup_passdb, h, get_user_data]

/-- Witness for C5: the test-suite scenario — with the `nocreate` sentinel
present, `newuser1@something.org` is not provisioned. -/
theorem lookup_passdb_nocreate_witness :
    Database.get_user fresh_db "newuser1@something.org" = none ∧
    (lookup_passdb fresh_db ⟨"something.org"⟩ "newuser1@something.org"
        "zequ0Aimuchoodaechik" true "s1" = (none, fresh_db) ∧
      get_user_data (lookup_passdb fresh_db ⟨"something.org"⟩ "newuser1@something.org"
          "zequ0Aimuchoodaechik" true "s1").2 "newuser1@something.org" = none) :=
  ⟨by decide,
   lookup_passdb_nocreate fresh_db ⟨"something.org"⟩ "newuser1@something.org"
     "zequ0Aimuchoodaechik" "s1" (by decide)⟩

/-- C8: hashing the identical plaintext secret under two different (fresh) salts
produces two different password hashes, so hash equality never reveals secret
equality across accounts. -/
theorem encrypt_password_distinct_salts (secret s₁ s₂ : String) (h : s₁ ≠ s₂) :
    encrypt_password s₁ secret ≠ encrypt_password s₂ secret := by
  intro he
  apply h
  apply data_inj
  have hd := congrArg String.data he
  simp only [encrypt_password, String.data_append, List.append_assoc] at hd
  exact List.append_cancel_right (List.append_cancel_left hd)

/-- Witness for C8: two concrete distinct salts on the same secret give distinct
hashes. -/
theorem encrypt_password_distinct_salts_witness :
    "saltA" ≠ "saltB" ∧
    encrypt_password "saltA" "Pieg9aeToe3eghuthe5u" ≠
      encrypt_password "saltB" "Pieg9aeToe3eghuthe5u" :=
  ⟨by decide, encrypt_password_distinct_salts "Pieg9aeToe3eghuthe5u" "saltA" "saltB"
    (by decide)⟩

/-- C9: every provisioning call returns an email inside the configured mail
domain, and two calls with distinct freshness nonces (fresh randomness) return
distinct emails and distinct passwords. -/
theorem create_newemail_dict_fresh (config : Config) (n₁ n₂ : Nat) (h : n₁ ≠ n₂) :
    (∃ localpart, (create_newemail_dict config n₁).email =
        localpart ++ "@" ++ config.mail_domain) ∧
    (create_newemail_dict config n₁).email ≠ (create_newemail_dict config n₂).email ∧
    (create_newemail_dict config n₁).password ≠ (create_newemail_dict config n₂).password := by
  refine ⟨⟨gen_random_user n₁, rfl⟩, ?_, ?_⟩
  · intro he
    have hl := congrArg String.length he
    simp only [create_newemail_dict, String.length_append, gen_random_user] at hl
    have : (String.mk (List.replicate (9 + n₁) 'u')).length = 9 + n₁ := by
      simp [String.length]
    have h₂ : (String.mk (List.replicate (9 + n₂) 'u')).length = 9 + n₂ := by
      simp [String.length]
    rw [this, h₂] at hl
    omega
  · intro he
    have hl := congrArg String.length he
    simp only [create_newemail_dict, gen_random_password, String.length] at hl
    simp at hl
    omega

/-- Witness for C9: two concrete distinct nonces give a fresh distinct pair. -/
theorem create_newemail_dict_fresh_witness :
    (0 : Nat) ≠ 1 ∧
    ((∃ localpart, (create_newemail_dict ⟨"example.org"⟩ 0).email =
        localpart ++ "@" ++ Config.mail_domain ⟨"example.org"⟩) ∧
      (create_newemail_dict ⟨"example.org"⟩ 0).email ≠
        (create_newemail_dict ⟨"example.org"⟩ 1).email ∧
      (create_newemail_dict ⟨"example.org"⟩ 0).password ≠
        (create_newemail_dict ⟨"example.org"⟩ 1).password) :=
  ⟨by decide, create_newemail_dict_fresh ⟨"example.org"⟩ 0 1 (by decide)⟩

/-- C10: a freshly initialized store reports schema version exactly 1 (the marker
living in the `user_version` pragma read by `get_schema_version`), and every
provisioned password has length at least 10. -/
theorem db_version_and_password_length :
    Database.init.ensure_tables = Except.ok fresh_db ∧
    fresh_db.get_schema_version = 1 ∧
    ∀ n : Nat, 10 ≤ (gen_random_password n).length := by
  refine ⟨rfl, rfl, ?_⟩
  intro n
  have : (gen_random_password n).length = 12 + n := by
    simp [gen_random_password, String.length]
  omega

/-- C3: true thread interleavings are outside a shallow embedding, but per the
spec the store's atomic `get_or_create` totally orders racing creators, so N
concurrent first-time lookups are modelled as an arbitrary serialization
(`run_lookups`).  For an address the store has never seen, any nonempty
serialization of callers with arbitrary distinct secrets leaves exactly one row
for that address, the provisioning hash is computed from the single winning
(first-serialized) caller alone, and every caller receives that same record and
password hash. -/
theorem run_lookups_exactly_once (db : Database) (config : Config) (a : String)
    (s₀ salt₀ : String) (calls : List (String × String))
    (hnone : db.get_user a = none) :
    (run_lookups db config a false ((s₀, salt₀) :: calls)).1.users.countP
        (fun p => p.1 == a) = 1 ∧
    Database.get_user (run_lookups db config a false ((s₀, salt₀) :: calls)).1 a =
        some (encrypt_password salt₀ s₀) ∧
    (run_lookups db config a false ((s₀, salt₀) :: calls)).2 =
        ((s₀, salt₀) :: calls).map
          (fun _ => some (user_record a (encrypt_password salt₀ s₀))) := by
  have hfind : db.users.find? (fun p => p.1 == a) = none := by
    have := hnone
    simp only [Database.get_user, Option.map_eq_none'] at this
    exact this
  have hcount0 : db.users.countP (fun p => p.1 == a) = 0 := by
    rw [List.countP_eq_zero]
    intro x hx
    exact List.find?_eq_none.mp hfind x hx
  have hins : Database.get_user
      { db with users := (a, encrypt_password salt₀ s₀) :: db.users } a =
        some (encrypt_password salt₀ s₀) := by
    rw [get_user_insert]
    simp
  have hrun : run_lookups db config a false ((s₀, salt₀) :: calls) =
      ({ db with users := (a, encrypt_password salt₀ s₀) :: db.users },
       some (user_record a (encrypt_password salt₀ s₀)) ::
         calls.map (fun _ => some (user_record a (encrypt_password salt₀ s₀)))) := by
    simp only [run_lookups, lookup_passdb_create config hnone s₀ salt₀,
      run_lookups_stable config hins false calls]
  rw [hrun]
  refine ⟨?_, hins, by simp⟩
  simp [List.countP_cons, hcount0]

/-- Witness for C3: three serialized callers race on the unseen address
`racer@example.org`, each with a distinct secret; one row results and all three
receive the first caller's hash. -/
theorem run_lookups_exactly_once_witness :
    Database.get_user fresh_db "racer@example.org" = none ∧
    ((run_lookups fresh_db ⟨"example.org"⟩ "racer@example.org" false
          [("pw1", "t1"), ("pw2", "t2"), ("pw3", "t3")]).1.users.countP
        (fun p => p.1 == "racer@example.org") = 1 ∧
      Database.get_user (run_lookups fresh_db ⟨"example.org"⟩ "racer@example.org" false
          [("pw1", "t1"), ("pw2", "t2"), ("pw3", "t3")]).1 "racer@example.org" =
        some (encrypt_password "t1" "pw1") ∧
      (run_lookups fresh_db ⟨"example.org"⟩ "racer@example.org" false
          [("pw1", "t1"), ("pw2", "t2"), ("pw3", "t3")]).2 =
        [("pw1", "t1"), ("pw2", "t2"), ("pw3", "t3")].map
          (fun _ => some (user_record "racer@example.org"
            (encrypt_password "t1" "pw1")))) :=
  ⟨by decide,
   run_lookups_exactly_once fresh_db ⟨"example.org"⟩ "racer@example.org" "pw1" "t1"
     [("pw2", "t2"), ("pw3", "t3")] (by decide)⟩

/-- Every run of the lookup-body handler produces a well-formed single reply
line with tag `O`, `N` or `F`. -/
lemma handle_lookup_shape (body : List Char) (db : Database) (config : Config)
    (nc : Bool) (salt : String) :
    ∃ tag payload db', handle_lookup body db config nc salt =
      (mkReply tag payload, db') ∧ (tag = 'O' ∨ tag = 'N' ∨ tag = 'F') := by
  unfold handle_lookup
  split
  · split
    · split
      · dsimp only
        split
        · exact ⟨'O', _, _, rfl, Or.inl rfl⟩
        · exact ⟨'N', "", _, rfl, Or.inr (Or.inl rfl)⟩
      · exact ⟨'F', "", db, rfl, Or.inr (Or.inr rfl)⟩
    · exact ⟨'F', "", db, rfl, Or.inr (Or.inr rfl)⟩
  · exact ⟨'F', "", db, rfl, Or.inr (Or.inr rfl)⟩

/-- C7: for every input line — malformed lines and unrecognized command tags
included — the protocol handler returns a defined reply of the uniform
tagged-line shape (`O`, `N` or `F` tag, payload, single trailing newline) and
never a structural parse error; an empty line or an unrecognized leading tag is
answered with the uniform not-found/failure reply, leaving the store unchanged. -/
theorem handle_dovecot_request_total (msg : String) (db : Database)
    (config : Config) (nc : Bool) (salt : String) :
    (∃ tag payload db', handle_dovecot_request msg db config nc salt =
        (mkReply tag payload, db') ∧ (tag = 'O' ∨ tag = 'N' ∨ tag = 'F')) ∧
    (∀ c rest, msg.data = c :: rest → c ≠ 'L' →
      handle_dovecot_request msg db config nc salt = (mkReply 'F' "", db)) ∧
    (msg.data = [] →
      handle_dovecot_request msg db config nc salt = (mkReply 'F' "", db)) := by
  refine ⟨?_, ?_, ?_⟩
  · rcases hm : msg.data with _ | ⟨c, rest⟩
    · exact ⟨'F', "", db, by simp [handle_dovecot_request, hm], Or.inr (Or.inr rfl)⟩
    · by_cases hc : c = 'L'
      · have : handle_dovecot_request msg db config nc salt =
            handle_lookup rest db config nc salt := by
          simp [handle_dovecot_request, hm, hc]
        rw [this]
        exact handle_lookup_shape rest db config nc salt
      · exact ⟨'F', "", db, by simp [handle_dovecot_request, hm, hc],
          Or.inr (Or.inr rfl)⟩
  · intro c rest hm hc
    simp [handle_dovecot_request, hm, hc]
  · intro hm
    simp [handle_dovecot_request, hm]

/-- Witness for C7: a line with the unrecognized leading tag `X` is answered
with the uniform failure reply and the store is untouched. -/
theorem handle_dovecot_request_total_witness :
    "Xgarbage".data = 'X' :: "garbage".data ∧ ('X' : Char) ≠ 'L' ∧
    handle_dovecot_request "Xgarbage" fresh_db ⟨"example.org"⟩ false "s1" =
      (mkReply 'F' "", fresh_db) :=
  ⟨rfl, by decide,
   (handle_dovecot_request_total "Xgarbage" fresh_db ⟨"example.org"⟩ false "s1").2.1
     'X' "garbage".data rfl (by decide)⟩

/-- On a well-formed passdb request body — key `shared/passdb/<token>/<address>`,
a tab, then the echoed address — for an address without a row, with creation
enabled, the lookup handler provisions the account and emits the success reply. -/
lemma handle_lookup_wellformed (db : Database) (config : Config)
    (tok addr salt : String)
    (htok : '/' ∉ tok.data) (htokt : '\t' ∉ tok.data)
    (haddr : '/' ∉ addr.data) (haddrt : '\t' ∉ addr.data)
    (hdb : db.get_user addr = none) :
    handle_lookup ("shared".data ++ '/' :: ("passdb".data ++ '/' ::
        (tok.data ++ '/' :: (addr.data ++ '\t' :: addr.data)))) db config false salt =
      (mkReply 'O' (serialize_user (user_record addr (encrypt_password salt tok))),
       { db with users := (addr, encrypt_password salt tok) :: db.users }) := by
  have hbody : ("shared".data ++ '/' :: ("passdb".data ++ '/' ::
      (tok.data ++ '/' :: (addr.data ++ '\t' :: addr.data)))) =
      ("shared".data ++ '/' :: ("passdb".data ++ '/' :: (tok.data ++ '/' :: addr.data)))
        ++ '\t' :: addr.data := by
    simp [List.append_assoc]
  have hA : '\t' ∉ ("shared".data ++ '/' :: ("passdb".data ++ '/' ::
      (tok.data ++ '/' :: addr.data))) := by
    intro hmem
    simp only [List.mem_append, List.mem_cons] at hmem
    rcases hmem with h | h | h | h | h | h | h
    · exact absurd h (by decide)
    · exact absurd h (by decide)
    · exact absurd h (by decide)
    · exact absurd h (by decide)
    · exact htokt h
    · exact absurd h (by decide)
    · exact haddrt h
  have hsplit1 : splitOnChar '\t' (("shared".data ++ '/' :: ("passdb".data ++ '/' ::
      (tok.data ++ '/' :: addr.data))) ++ '\t' :: addr.data) =
      [("shared".data ++ '/' :: ("passdb".data ++ '/' :: (tok.data ++ '/' :: addr.data))),
       addr.data] := by
    rw [splitOnChar_append _ _ hA, splitOnChar_not_mem haddrt]
  have hsplit2 : splitOnChar '/' ("shared".data ++ '/' :: ("passdb".data ++ '/' ::
      (tok.data ++ '/' :: addr.data))) =
      ["shared".data, "passdb".data, tok.data, addr.data] := by
    rw [splitOnChar_append _ _ (by decide), splitOnChar_append _ _ (by decide),
        splitOnChar_append _ _ htok, splitOnChar_not_mem haddr]
  have hmkaddr : String.mk addr.data = addr := rfl
  have hmktok : String.mk tok.data = tok := rfl
  rw [hbody]
  simp only [handle_lookup, hsplit1, hsplit2, hmkaddr, hmktok]
  simp only [and_self, if_true, reduceIte]
  rw [lookup_passdb_create config hdb tok salt]

/-- C6: every well-formed passdb request line
`"L" ++ "shared/passdb/" ++ token ++ "/" ++ address ++ "\t" ++ address` against
a fresh store with creation enabled yields a reply that is the success tag `O`
followed immediately by the serialized record and exactly one terminating
newline; the record's address equals the requested address, its home path and
owner-identity fields equal the fixed storage-owner conventions, and its
password hash begins with the `{SHA512-CRYPT}` algorithm tag. -/
theorem handle_dovecot_request_roundtrip (config : Config) (tok addr salt : String)
    (htok : '/' ∉ tok.data) (htokt : '\t' ∉ tok.data) (htokn : '\n' ∉ tok.data)
    (haddr : '/' ∉ addr.data) (haddrt : '\t' ∉ addr.data) (haddrn : '\n' ∉ addr.data)
    (hsaltn : '\n' ∉ salt.data) :
    ∃ db' : Database,
      handle_dovecot_request ("Lshared/passdb/" ++ tok ++ "/" ++ addr ++ "\t" ++ addr)
          fresh_db config false salt =
        (mkReply 'O' (serialize_user (user_record addr (encrypt_password salt tok))),
         db') ∧
      (user_record addr (encrypt_password salt tok)).address = addr ∧
      (user_record addr (encrypt_password salt tok)).uid = "vmail" ∧
      (user_record addr (encrypt_password salt tok)).gid = "vmail" ∧
      (user_record addr (encrypt_password salt tok)).home = "/home/vmail/" ++ addr ∧
      (∃ rest, (user_record addr (encrypt_password salt tok)).password =
        "\x7bSHA512-CRYPT\x7d" ++ rest) ∧
      List.count '\n'
        (mkReply 'O' (serialize_user (user_record addr (encrypt_password salt tok)))).data
        = 1 := by
  refine ⟨{ fresh_db with
      users := [(addr, encrypt_password salt tok)] }, ?_, rfl, rfl, rfl, rfl, ?_, ?_⟩
  · have hmsg : ("Lshared/passdb/" ++ tok ++ "/" ++ addr ++ "\t" ++ addr).data =
        'L' :: ("shared".data ++ '/' :: ("passdb".data ++ '/' ::
          (tok.data ++ '/' :: (addr.data ++ '\t' :: addr.data)))) := by
      have h0 : "Lshared/passdb/".data =
          'L' :: ("shared".data ++ '/' :: ("passdb".data ++ ['/'])) := by decide
      simp [String.data_append, h0, List.append_assoc]
    have hfresh : fresh_db.get_user addr = none := rfl
    have hlook := handle_lookup_wellformed fresh_db config tok addr salt
      htok htokt haddr haddrt hfresh
    simp only [handle_dovecot_request, hmsg, reduceIte]
    exact hlook
  · refine ⟨"$6$" ++ salt ++ "$" ++ sha512_digest tok, ?_⟩
    apply data_inj
    have h1 : "\x7bSHA512-CRYPT\x7d$6$".data =
        "\x7bSHA512-CRYPT\x7d".data ++ "$6$".data := by decide
    simp [user_record, encrypt_password, String.data_append, h1, List.append_assoc]
  · have hdata : (mkReply 'O' (serialize_user (user_record addr
        (encrypt_password salt tok)))).data =
        'O' :: (serialize_user (user_record addr (encrypt_password salt tok))).data
          ++ ['\n'] := rfl
    have hser : List.count '\n'
        (serialize_user (user_record addr (encrypt_password salt tok))).data = 0 := by
      have e₁ : List.count '\n' addr.data = 0 := List.count_eq_zero.mpr haddrn
      have e₂ : List.count '\n' salt.data = 0 := List.count_eq_zero.mpr hsaltn
      have e₃ : List.count '\n' tok.data = 0 := List.count_eq_zero.mpr htokn
      simp only [serialize_user, user_record, encrypt_password, sha512_digest,
        String.data_append, List.append_assoc, List.count_append, e₁, e₂, e₃]
      decide
    rw [hdata]
    simp [List.count_cons, List.count_append, hser]

/-- Witness for C6: the concrete request for `some42@c3.testrun.org` with token
`tok123` against the fresh store produces the tagged success reply. -/
theorem handle_dovecot_request_roundtrip_witness :
    ('/' ∉ "tok123".data ∧ '\t' ∉ "tok123".data ∧ '\n' ∉ "tok123".data) ∧
    ('/' ∉ "some42@c3.testrun.org".data ∧ '\t' ∉ "some42@c3.testrun.org".data ∧
      '\n' ∉ "some42@c3.testrun.org".data) ∧
    '\n' ∉ "salt0".data ∧
    (∃ db' : Database,
      handle_dovecot_request ("Lshared/passdb/" ++ "tok123" ++ "/" ++
          "some42@c3.testrun.org" ++ "\t" ++ "some42@c3.testrun.org")
          fresh_db ⟨"c3.testrun.org"⟩ false "salt0" =
        (mkReply 'O' (serialize_user (user_record "some42@c3.testrun.org"
          (encrypt_password "salt0" "tok123"))), db') ∧
      (user_record "some42@c3.testrun.org" (encrypt_password "salt0" "tok123")).address =
        "some42@c3.testrun.org" ∧
      (user_record "some42@c3.testrun.org" (encrypt_password "salt0" "tok123")).uid =
        "vmail" ∧
      (user_record "some42@c3.testrun.org" (encrypt_password "salt0" "tok123")).gid =
        "vmail" ∧
      (user_record "some42@c3.testrun.org" (encrypt_password "salt0" "tok123")).home =
        "/home/vmail/" ++ "some42@c3.testrun.org" ∧
      (∃ rest, (user_record "some42@c3.testrun.org"
          (encrypt_password "salt0" "tok123")).password =
        "\x7bSHA512-CRYPT\x7d" ++ rest) ∧
      List.count '\n' (mkReply 'O' (serialize_user (user_record "some42@c3.testrun.org"
          (encrypt_password "salt0" "tok123")))).data = 1) :=
  ⟨⟨by decide, by decide, by decide⟩,
   ⟨by decide, by decide, by decide⟩,
   by decide,
   handle_dovecot_request_roundtrip ⟨"c3.testrun.org"⟩ "tok123" "some42@c3.testrun.org"
     "salt0" (by decide) (by decide) (by decide) (by decide) (by decide) (by decide)
     (by decide)⟩
